import Mathlib

/-!
Verification of the Context_Prompt_Tool ingestion pipeline (src/main.py).

Strings are modelled as lists of characters (`Str`), so that structural
reasoning about concatenation and prefixes is by plain list induction.
External effects (file reads, subprocess converters, optional libraries,
HTTP) are modelled as oracle fields of an `Env`/`Option HttpResp` record;
a Python exception that escapes to the caller is modelled as
`Except.error`, while code that catches its own exceptions is total.
-/

abbrev Str := List Char

set_option maxRecDepth 100000

instance exceptDecEq {α β : Type} [DecidableEq α] [DecidableEq β] :
    DecidableEq (Except α β) := fun a b =>
  match a, b with
  | .error x, .error y =>
    if h : x = y then .isTrue (by rw [h]) else .isFalse (fun he => by
      cases he; exact h rfl)
  | .ok x, .ok y =>
    if h : x = y then .isTrue (by rw [h]) else .isFalse (fun he => by
      cases he; exact h rfl)
  | .error _, .ok _ => .isFalse (fun he => by cases he)
  | .ok _, .error _ => .isFalse (fun he => by cases he)

/-- Python `str.strip()` whitespace test (common whitespace subset). -/
def pySpace (c : Char) : Bool :=
  c == ' ' || c == '\t' || c == '\n' || c == '\r' || c == '\x0b' || c == '\x0c'

/-- Python `str.strip()`. -/
def pyStrip (t : Str) : Str :=
  ((t.dropWhile pySpace).reverse.dropWhile pySpace).reverse

/-- Python `str.lower()` (ASCII case fold). -/
def lowerStr (t : Str) : Str := t.map Char.toLower

/-- `os.path.basename` (POSIX separator). -/
def basename (p : Str) : Str := (p.reverse.takeWhile (fun c => c != '/')).reverse

/-- `os.path.join(dirpath, fn)` (POSIX separator). -/
def pathJoin (dp fn : Str) : Str := dp ++ '/' :: fn

/-- The extension part of `os.path.splitext(p)[1]`, computed over the final
path component (the characters after the last separator, as in CPython's
`dotIndex > sepIndex` guard): the suffix from the last dot of that
component, provided some character of the component strictly before that
dot is not itself a dot — so dotfiles such as `.bashrc` or `dir/.csv`
have no extension. -/
def splitextExt (p : Str) : Str :=
  let rev := (basename p).reverse
  let afterDot := rev.takeWhile (fun c => c != '.')
  if afterDot.length = rev.length then []
  else
    let pre := rev.drop (afterDot.length + 1)
    if pre.any (fun c => c != '.') then '.' :: afterDot.reverse else []

/-- `os.path.splitext(path)[1].lower()` as used throughout `main.py`. -/
def extOf (fn : Str) : Str := lowerStr (splitextExt fn)

/-- `FILE_SIZE_LIMIT = 20 * 1024 * 1024` (main.py line 68). -/
def FILE_SIZE_LIMIT : Nat := 20 * 1024 * 1024

/-- `MAX_CONCURRENT_FILES = 5` (main.py line 69). -/
def MAX_CONCURRENT_FILES : Nat := 5

/-- `ALLOWED_TEXT_EXTS` (main.py lines 71-76). -/
def ALLOWED_TEXT_EXTS : List Str :=
  [".txt".data, ".md".data, ".py".data, ".java".data, ".c".data, ".h".data,
   ".cpp".data, ".hpp".data, ".js".data, ".ts".data,
   ".json".data, ".yml".data, ".yaml".data, ".xml".data, ".html".data,
   ".css".data, ".go".data, ".rs".data, ".sh".data,
   ".bat".data, ".ps1".data, ".sql".data, ".ini".data, ".cfg".data,
   ".toml".data, ".log".data, ".csv".data, ".tsv".data,
   ".doc".data, ".docx".data, ".xls".data, ".xlsx".data]

/-- A `.docx` document as seen through python-docx: paragraph texts in
document order and tables as rows of cell texts. -/
structure DocxFile where
  paragraphs : List Str
  tables : List (List (List Str))

/-- One `.xlsx` worksheet through openpyxl: `cellVal r c` is
`str(ws.cell(r, c).value)` when the cell value is not `None`. -/
structure XlsxSheet where
  sheetName : Str
  maxRow : Nat
  maxCol : Nat
  cellVal : Nat → Nat → Option Str

structure XlsxWorkbook where
  sheets : List XlsxSheet

/-- One `.xls` cell through xlrd: a date cell carries the rendered
`str(xldate_as_tuple(...))`, any other non-empty cell carries `str(val)`. -/
inductive XlsCellVal where
  | emptyV
  | dateV (tup : Str)
  | otherV (v : Str)

structure XlsSheet where
  sheetName : Str
  nrows : Nat
  ncols : Nat
  cell : Nat → Nat → XlsCellVal

structure XlsBook where
  sheets : List XlsSheet

/-- The effectful surroundings of the extraction code: file reads, the
optional-dependency flags, and the per-method `.doc` converter helpers
(each of those helpers in main.py catches its own exceptions and returns
a string, so they are modelled as total string oracles).
`Except.error` on `openText`/`getsize`/`docxRead`/... models a raised
Python exception at that call. -/
structure Env where
  openText : Str → Except Str Str
  getsize : Str → Except Str Nat
  win32Available : Bool
  subprocessAvailable : Bool
  docxAvailable : Bool
  openpyxlAvailable : Bool
  xlrdAvailable : Bool
  win32Read : Str → Str
  antiwordRead : Str → Str
  catdocRead : Str → Str
  unoconvRead : Str → Str
  textractRead : Str → Str
  docxRead : Str → Except Str DocxFile
  xlsxRead : Str → Except Str XlsxWorkbook
  xlsRead : Str → Except Str XlsBook

/-- Parser modes of the `csv.reader` record scanner: at the start of a
field, inside an unquoted field, inside a quoted field, just after a
quote character inside a quoted field, and just after a bare carriage
return (so that a following linefeed is absorbed). -/
inductive CsvMode where
  | fieldStart
  | inField
  | inQuoted
  | quoteInQuoted
  | afterCR

/-- `csv.field_size_limit()` default (CPython `_csv.c`). -/
def fieldSizeLimit : Nat := 131072

/-- The message of the `_csv.Error` raised when a field outgrows the
field size limit. -/
def fieldLimitMsg : Str := "field larger than field limit (131072)".data

/-- Prepend a completed record to the rows of a parse that did not raise;
a raised error propagates and discards them. -/
def csvConsRow (r : List Str) :
    Except Str (List (List Str)) → Except Str (List (List Str))
  | .error e => .error e
  | .ok rows => .ok (r :: rows)

/-- `csv.reader` record scanner (default dialect: quotechar a double
quote, doubled quotes inside a quoted field, records terminated by
newline / carriage return, a blank line yielding an empty record, the
reader non-strict about data after a closing quote).  As in CPython's
`parse_add_char`, adding a character to a field that already holds
`field_size_limit` characters raises `_csv.Error` (modelled as
`Except.error`); the NUL-byte error of Python < 3.11 is not modelled —
the model follows Python ≥ 3.11.  Arguments: remaining input, mode,
record-started flag, current field (reversed), completed fields of the
record (reversed). -/
def csvGo (delim : Char) :
    Str → CsvMode → Bool → Str → List Str → Except Str (List (List Str))
  | [], _, started, fld, row =>
    .ok (if started then [(fld.reverse :: row).reverse] else [])
  | c :: rest, .inQuoted, _, fld, row =>
    if c = '"' then csvGo delim rest .quoteInQuoted true fld row
    else if fld.length ≥ fieldSizeLimit then .error fieldLimitMsg
    else csvGo delim rest .inQuoted true (c :: fld) row
  | c :: rest, .quoteInQuoted, _, fld, row =>
    if c = '"' then
      if fld.length ≥ fieldSizeLimit then .error fieldLimitMsg
      else csvGo delim rest .inQuoted true ('"' :: fld) row
    else if c = delim then csvGo delim rest .fieldStart true [] (fld.reverse :: row)
    else if c = '\n' then
      csvConsRow (fld.reverse :: row).reverse (csvGo delim rest .fieldStart false [] [])
    else if c = '\r' then
      csvConsRow (fld.reverse :: row).reverse (csvGo delim rest .afterCR false [] [])
    else if fld.length ≥ fieldSizeLimit then .error fieldLimitMsg
    else csvGo delim rest .inField true (c :: fld) row
  | c :: rest, .inField, _, fld, row =>
    if c = delim then csvGo delim rest .fieldStart true [] (fld.reverse :: row)
    else if c = '\n' then
      csvConsRow (fld.reverse :: row).reverse (csvGo delim rest .fieldStart false [] [])
    else if c = '\r' then
      csvConsRow (fld.reverse :: row).reverse (csvGo delim rest .afterCR false [] [])
    else if fld.length ≥ fieldSizeLimit then .error fieldLimitMsg
    else csvGo delim rest .inField true (c :: fld) row
  | c :: rest, .afterCR, started, fld, row =>
    if c = '\n' then csvGo delim rest .fieldStart started fld row
    else if c = '"' then csvGo delim rest .inQuoted true fld row
    else if c = delim then csvGo delim rest .fieldStart true [] (fld.reverse :: row)
    else if c = '\r' then
      csvConsRow (if started then (fld.reverse :: row).reverse else [])
        (csvGo delim rest .afterCR false [] [])
    else if fld.length ≥ fieldSizeLimit then .error fieldLimitMsg
    else csvGo delim rest .inField true (c :: fld) row
  | c :: rest, .fieldStart, started, fld, row =>
    if c = '"' then csvGo delim rest .inQuoted true fld row
    else if c = delim then csvGo delim rest .fieldStart true [] (fld.reverse :: row)
    else if c = '\n' then
      csvConsRow (if started then (fld.reverse :: row).reverse else [])
        (csvGo delim rest .fieldStart false [] [])
    else if c = '\r' then
      csvConsRow (if started then (fld.reverse :: row).reverse else [])
        (csvGo delim rest .afterCR false [] [])
    else if fld.length ≥ fieldSizeLimit then .error fieldLimitMsg
    else csvGo delim rest .inField true (c :: fld) row

/-- `csv.reader(f, delimiter=delim)` over decoded file content;
`Except.error` models `_csv.Error` raised during iteration. -/
def csvParse (delim : Char) (content : Str) : Except Str (List (List Str)) :=
  csvGo delim content .fieldStart false [] []

/-- main.py lines 350-364: the `.docx` rendering — paragraph texts in order,
then each table row with stripped cell texts joined by a separator. -/
def renderDocx (d : DocxFile) : Str :=
  List.intercalate ['\n']
    (d.paragraphs ++
      (d.tables.map (fun tbl =>
        tbl.map (fun row => List.intercalate " | ".data (row.map pyStrip)))).flatten)

/-- main.py lines 372-386: lines emitted for one `.xlsx` sheet. -/
def xlsxSheetLines (sh : XlsxSheet) : List Str :=
  let mr := if sh.maxRow = 0 then 1 else sh.maxRow
  let mc := if sh.maxCol = 0 then 1 else sh.maxCol
  ("[Sheet: ".data ++ sh.sheetName ++ "]".data)
    :: ((List.range' 1 mr).map (fun r =>
          List.intercalate ['\t']
            ((List.range' 1 mc).map (fun c => (sh.cellVal r c).getD []))))
    ++ [[]]

def renderXlsx (wb : XlsxWorkbook) : Str :=
  List.intercalate ['\n'] (wb.sheets.map xlsxSheetLines).flatten

/-- main.py lines 403-413: rendering of one `.xls` cell. -/
def xlsCellText : XlsCellVal → Str
  | .emptyV => []
  | .dateV tup => tup
  | .otherV v => v

/-- main.py lines 397-415: lines emitted for one `.xls` sheet. -/
def xlsSheetLines (sh : XlsSheet) : List Str :=
  ("[Sheet: ".data ++ sh.sheetName ++ "]".data)
    :: ((List.range sh.nrows).map (fun r =>
          List.intercalate ['\t']
            ((List.range sh.ncols).map (fun c => xlsCellText (sh.cell r c)))))
    ++ [[]]

def renderXls (book : XlsBook) : Str :=
  List.intercalate ['\n'] (book.sheets.map xlsSheetLines).flatten

/-- Failure marks checked by the `.doc` fallback chain (main.py 249-284). -/
def w32FailMark : Str := "[win32com 读取失败".data
def antiMissMark : Str := "[未找到 antiword 命令".data
def antiFailMark : Str := "[antiword 转换失败".data
def catMissMark : Str := "[未找到 catdoc 命令".data
def catFailMark : Str := "[catdoc 转换失败".data
def unoMissMark : Str := "[未找到 unoconv 命令".data
def unoFailMark : Str := "[unoconv 转换失败".data
def textMissMark : Str := "[textract 不可用".data
def textFailMark : Str := "[textract 转换失败".data

/-- The installation-guidance fallback text (main.py 307-348, after
`.strip()`). -/
def installGuide : Str :=
  ("[.doc 文件读取失败]\n\n支持 .doc 文件的几种方案（任选其一）：\n\n" ++
   "1. Windows 系统（推荐）:\n   • 安装 Microsoft Word 或 Word Viewer\n\n" ++
   "   • 安装 pywin32: pip install pywin32\n\n\n" ++
   "2. 安装 antiword（跨平台）:\n   • Linux: sudo apt-get install antiword\n\n" ++
   "   • macOS: brew install antiword\n\n" ++
   "   • Windows: 下载 antiword.exe 并添加到 PATH\n\n" ++
   "   • 然后使用: pip install antiword\n\n\n" ++
   "3. 安装 catdoc（跨平台）:\n   • Linux: sudo apt-get install catdoc\n\n" ++
   "   • macOS: brew install catdoc\n\n" ++
   "   • Windows: 下载 catdoc 并添加到 PATH\n\n\n" ++
   "4. 安装 LibreOffice + unoconv:\n   • 安装 LibreOffice\n\n" ++
   "   • 安装 unoconv: pip install unoconv\n\n\n" ++
   "5. 安装 textract（推荐）:\n   • pip install textract\n\n\n" ++
   "选择一种方案安装后，重新尝试打开 .doc 文件。").data

/-- main.py lines 244-348: the `.doc` branch of `read_text_from_any_file`.
Each numbered method is attempted under its availability guard; its result
is returned as soon as it does not carry that method's checked failure
marks; the python-docx fallback additionally requires non-blank output;
otherwise the installation guide is returned. -/
def extractDoc (env : Env) (path : Str) : Str :=
  if env.win32Available && !(w32FailMark.isPrefixOf (env.win32Read path)) then
    env.win32Read path
  else if env.subprocessAvailable
      && (!(antiMissMark.isPrefixOf (env.antiwordRead path))
        && !(antiFailMark.isPrefixOf (env.antiwordRead path))) then env.antiwordRead path
  else if env.subprocessAvailable
      && (!(catMissMark.isPrefixOf (env.catdocRead path))
        && !(catFailMark.isPrefixOf (env.catdocRead path))) then env.catdocRead path
  else if env.subprocessAvailable
      && (!(unoMissMark.isPrefixOf (env.unoconvRead path))
        && !(unoFailMark.isPrefixOf (env.unoconvRead path))) then env.unoconvRead path
  else if !(textMissMark.isPrefixOf (env.textractRead path))
      && !(textFailMark.isPrefixOf (env.textractRead path)) then env.textractRead path
  else if env.docxAvailable then
    match env.docxRead path with
    | .ok d => if !(pyStrip (renderDocx d)).isEmpty then renderDocx d else installGuide
    | .error _ => installGuide
  else installGuide

/-- main.py lines 231-425: `read_text_from_any_file`.  The `.csv`/`.tsv`
branch opens the file outside of any try/except, so a failing open
propagates (`Except.error`); every other branch catches its failures and
returns a diagnostic string. -/
def read_text_from_any_file (env : Env) (path : Str) : Except Str Str :=
  if extOf path = ".csv".data ∨ extOf path = ".tsv".data then
    match env.openText path with
    | .error e => .error e
    | .ok content =>
      match csvParse (if extOf path = ".csv".data then ',' else '\t') content with
      | .error e => .error e
      | .ok rows =>
        .ok (List.intercalate ['\n'] (rows.map (List.intercalate ['\t'])))
  else if extOf path = ".doc".data then
    .ok (extractDoc env path)
  else if extOf path = ".docx".data then
    .ok (if !env.docxAvailable then "[不支持的格式: .docx]\npip install python-docx".data
      else
        match env.docxRead path with
        | .error e => "[读取 .docx 失败]\n".data ++ e
        | .ok d => renderDocx d)
  else if extOf path = ".xlsx".data then
    .ok (if !env.openpyxlAvailable then "[不支持的格式: .xlsx]\npip install openpyxl".data
      else
        match env.xlsxRead path with
        | .error e => "[读取 .xlsx 失败]\n".data ++ e
        | .ok wb => renderXlsx wb)
  else if extOf path = ".xls".data then
    .ok (if !env.xlrdAvailable then "[不支持的格式: .xls]\npip install xlrd".data
      else
        match env.xlsRead path with
        | .error e => "[读取 .xls 失败]\n".data ++ e
        | .ok bk => renderXls bk)
  else
    match env.openText path with
    | .ok c => .ok c
    | .error e => .ok ("[读取文件失败: ".data ++ path ++ "]\n".data ++ e)

/-! ## Directory scanner (main.py 428-463, `search_text_files_recursive`) -/

/-- One directory entry as seen by `os.walk`/`os.path.getsize`; a `false`
`statOk` models `os.path.getsize` raising `OSError` for that file. -/
structure FileRec where
  fname : Str
  fsize : Nat
  statOk : Bool

mutual
/-- A directory: its files and named subdirectories, in `os.walk` order. -/
inductive DirTree where
  | node (files : List FileRec) (subs : DirForest)
inductive DirForest where
  | nil
  | cons (dname : Str) (t : DirTree) (rest : DirForest)
end

/-- `skip_dirs` (main.py line 437). -/
def skipDirs : List Str :=
  [".git".data, "__pycache__".data, "node_modules".data, ".idea".data,
   "target".data, "build".data]

/-- `max_files = 1000` (main.py line 433). -/
def maxFiles : Nat := 1000

/-- The cumulative-size ceiling, 500MB (main.py line 455). -/
def totalSizeLimit : Nat := 500 * 1024 * 1024

/-- Warning entries appended on hitting the governors (main.py 442, 456). -/
def countWarnEntry : Str := "[警告: 已达到最大文件数量限制 1000，停止扫描]".data
def sizeWarnEntry : Str := "[警告: 总文件大小超过500MB，停止扫描]".data

/-- Mutable loop state of `search_text_files_recursive`. -/
structure ScanSt where
  res : List Str
  total : Nat
  count : Nat

/-- Body of the `for fn in filenames` loop; `Except.error r` models the
early `return result` (after appending a warning entry). -/
def scanStep (dirpath : Str) (st : ScanSt) (f : FileRec) : Except (List Str) ScanSt :=
  if st.count ≥ maxFiles then .error (st.res ++ [countWarnEntry])
  else if extOf f.fname ∈ ALLOWED_TEXT_EXTS then
    if f.statOk then
      if f.fsize > FILE_SIZE_LIMIT then .ok st
      else if st.total + f.fsize > totalSizeLimit then
        .error (st.res ++ [sizeWarnEntry])
      else .ok ⟨st.res ++ [pathJoin dirpath f.fname], st.total + f.fsize, st.count + 1⟩
    else .ok st
  else .ok st

def scanFiles (dirpath : Str) (files : List FileRec) (st : ScanSt) :
    Except (List Str) ScanSt :=
  match files with
  | [] => .ok st
  | f :: rest =>
    match scanStep dirpath st f with
    | .error r => .error r
    | .ok st1 => scanFiles dirpath rest st1

mutual
/-- `os.walk` top-down traversal with in-place pruning of `skip_dirs`. -/
def walkTree (dirpath : Str) (t : DirTree) (st : ScanSt) :
    Except (List Str) ScanSt :=
  match t with
  | .node files subs =>
    match scanFiles dirpath files st with
    | .error r => .error r
    | .ok st1 => walkForest dirpath subs st1
def walkForest (dirpath : Str) (forest : DirForest) (st : ScanSt) :
    Except (List Str) ScanSt :=
  match forest with
  | .nil => .ok st
  | .cons nm t rest =>
    if nm ∈ skipDirs then walkForest dirpath rest st
    else
      match walkTree (pathJoin dirpath nm) t st with
      | .error r => .error r
      | .ok st1 => walkForest dirpath rest st1
end

/-- `search_text_files_recursive(root_dir)` over the modelled tree. -/
def search_text_files_recursive (root : Str) (t : DirTree) : List Str :=
  match walkTree root t ⟨[], 0, 0⟩ with
  | .error r => r
  | .ok st => st.res

mutual
/-- The files `os.walk` visits (with their dirpath), in visit order,
honouring the pruning of `skip_dirs`. -/
def treeFiles (dirpath : Str) (t : DirTree) : List (Str × FileRec) :=
  match t with
  | .node files subs => files.map (fun f => (dirpath, f)) ++ forestFiles dirpath subs
def forestFiles (dirpath : Str) (forest : DirForest) : List (Str × FileRec) :=
  match forest with
  | .nil => []
  | .cons nm t rest =>
    (if nm ∈ skipDirs then [] else treeFiles (pathJoin dirpath nm) t)
      ++ forestFiles dirpath rest
end

/-! ## Concurrent ingestion (main.py 95-118, `read_text_files_by_paths`) -/

/-- `read_single_file` (main.py 99-108): returns `(fp, size, content)` and
converts any exception — a failing `getsize` or an exception escaping
`read_text_from_any_file` — into a diagnostic content string. -/
def read_single_file (env : Env) (fp : Str) : Str × Nat × Str :=
  match env.getsize fp with
  | .error e => (fp, 0, "[读取失败: ".data ++ basename fp ++ "]\n".data ++ e)
  | .ok size =>
    if size > FILE_SIZE_LIMIT then
      (fp, size, "[文件过大，未读取: ".data ++ basename fp ++ " (".data
        ++ (Nat.repr size).data ++ " bytes)]".data)
    else
      match read_text_from_any_file env fp with
      | .error e => (fp, 0, "[读取失败: ".data ++ basename fp ++ "]\n".data ++ e)
      | .ok content => (fp, size, content)

/-- Python dict assignment `m[k] = v`: update in place if the key exists,
otherwise append. -/
def dinsert (m : List (Str × Str × Nat)) (k : Str) (v : Str × Nat) :
    List (Str × Str × Nat) :=
  match m with
  | [] => [(k, v)]
  | (k0, v0) :: rest =>
    if k0 = k then (k0, v) :: rest else (k0, v0) :: dinsert rest k v

/-- Python dict lookup `m.get(k)`. -/
def dlookup (m : List (Str × Str × Nat)) (k : Str) : Option (Str × Nat) :=
  match m with
  | [] => none
  | (k0, v0) :: rest => if k0 = k then some v0 else dlookup rest k

/-- `read_text_files_by_paths` (main.py 95-118): every submitted path gets
one future; `as_completed` hands them back in an arbitrary completion
order (`order`), and each completed result is stored into the dict under
its own path. -/
def read_text_files_by_paths (env : Env) (order : List Str) :
    List (Str × Str × Nat) :=
  order.foldl
    (fun m fp =>
      match read_single_file env fp with
      | (fp1, size, content) => dinsert m fp1 (content, size))
    []

/-! ## Data model and merge (main.py 484-535, 1410-1475) -/

/-- One entry of a `folder` item's `files` list (main.py 497, 571-576). -/
structure FileEntry where
  file_path : Str
  content : Str
  fsize : Nat
  display_name : Str
deriving DecidableEq

/-- The payload dicts that the program constructs (documented in
`DataItem`'s docstring, main.py 486-499); `pempty` is the falsy empty
dict that `on_merge_and_copy` guards against. -/
inductive Payload where
  | pempty
  | pmanual (text : Str)
  | pfile (file_path : Str) (content : Str) (fsize : Nat) (display_name : Str)
  | psiyuan (sid : Str) (title : Str) (content : Str)
  | pfolder (folder_path : Str) (files : List FileEntry)
deriving DecidableEq

/-- `payload.get("text", "")`. -/
def Payload.getText : Payload → Str
  | .pmanual t => t
  | _ => []

/-- `payload.get("file_path", "未知文件")`. -/
def Payload.getFilePath : Payload → Str
  | .pfile fp _ _ _ => fp
  | _ => "未知文件".data

/-- `payload.get("content", "")`. -/
def Payload.getContent : Payload → Str
  | .pfile _ c _ _ => c
  | .psiyuan _ _ c => c
  | _ => []

/-- `payload.get("title", "无标题")`. -/
def Payload.getTitle : Payload → Str
  | .psiyuan _ t _ => t
  | _ => "无标题".data

/-- `payload.get("id", "")`. -/
def Payload.getId : Payload → Str
  | .psiyuan i _ _ => i
  | _ => []

/-- `payload.get("folder_path", "未知文件夹")`. -/
def Payload.getFolderPath : Payload → Str
  | .pfolder p _ => p
  | _ => "未知文件夹".data

/-- `payload.get("files", [])`. -/
def Payload.getFiles : Payload → List FileEntry
  | .pfolder _ fs => fs
  | _ => []

/-- `DataItem` (main.py 484-502). -/
structure DataItem where
  kind : Str
  payload : Payload
  _id : Str
deriving DecidableEq

/-- The merge separator `"\n" + "-" * 80 + "\n"` (main.py 1417). -/
def mergeSep : Str := '\n' :: (List.replicate 80 '-' ++ ['\n'])

/-- The per-file line of a `folder` block (main.py 1459-1465). -/
def folderFileLine (fi : FileEntry) : Str :=
  if pyStrip fi.content ≠ [] then
    "  ├─ ".data ++ basename fi.file_path ++ ['\n'] ++ pyStrip fi.content ++ ['\n']
  else "  ├─ ".data ++ basename fi.file_path ++ "（空内容）\n".data

/-- The lines `on_merge_and_copy` appends for one item (main.py 1420-1468):
a kind-appropriate header block, an explicit empty marker when the
extracted content strips to nothing, and per-file sub-lines for `folder`
items. -/
def itemLines (it : DataItem) : List Str :=
  match it.payload with
  | .pempty => ["【无效数据项】\n".data]
  | _ =>
    if it.kind = "manual".data then
      let text := pyStrip it.payload.getText
      if text ≠ [] then ["【手动提示词】\n".data ++ text ++ ['\n']]
      else ["【手动提示词（空）】\n".data]
    else if it.kind = "text_file".data then
      let nm := basename it.payload.getFilePath
      let content := pyStrip it.payload.getContent
      if content ≠ [] then ["【".data ++ nm ++ "】\n".data ++ content ++ ['\n']]
      else ["【".data ++ nm ++ "（空内容）】\n".data]
    else if ("siyuan".data).isPrefixOf it.kind then
      let title := pyStrip it.payload.getTitle
      let docId := pyStrip it.payload.getId
      let content := pyStrip it.payload.getContent
      if content ≠ [] then
        ["【".data ++ title ++ " [".data ++ docId ++ "]】\n".data ++ content ++ ['\n']]
      else ["【".data ++ title ++ " [".data ++ docId ++ "]（空内容）】\n".data]
    else if it.kind = "folder".data then
      ("【文件夹：".data ++ it.payload.getFolderPath ++ "（".data
        ++ (Nat.repr it.payload.getFiles.length).data ++ "个文件）】\n".data)
        :: it.payload.getFiles.map folderFileLine
    else ["【未知类型：".data ++ it.kind ++ "】\n".data]

/-- The `merged_lines` list built by `on_merge_and_copy` (main.py
1416-1472): after each item except the last the separator is appended,
except that the `continue` taken for a falsy payload skips it. -/
def mergeLines : List DataItem → List Str
  | [] => []
  | it :: rest =>
    if rest.isEmpty then itemLines it
    else if it.payload = .pempty then itemLines it ++ mergeLines rest
    else itemLines it ++ mergeSep :: mergeLines rest

/-- The final merged text `"".join(merged_lines)` (main.py 1475). -/
def mergedText (items : List DataItem) : Str := (mergeLines items).flatten

/-! ## Persistence (main.py 530-535, 1587-1647) -/

/-- A value stored in a persisted item dict. -/
inductive FieldVal where
  | vs (x : Str)
  | vp (p : Payload)
deriving DecidableEq

/-- A persisted record: a dict of named fields, possibly malformed. -/
abbrev StoredRec := List (Str × FieldVal)

def recLookup (d : StoredRec) (k : Str) : Option FieldVal :=
  match d with
  | [] => none
  | (k0, v0) :: rest => if k0 = k then some v0 else recLookup rest k

/-- `DataItem.to_dict` (main.py 530-531). -/
def DataItem.to_dict (it : DataItem) : StoredRec :=
  [("kind".data, .vs it.kind), ("payload".data, .vp it.payload),
   ("_id".data, .vs it._id)]

/-- `DataItem.from_dict` (main.py 533-535): `none` models the KeyError /
type error raised on a malformed record. -/
def DataItem.from_dict (d : StoredRec) : Option DataItem :=
  match recLookup d "kind".data, recLookup d "payload".data,
      recLookup d "_id".data with
  | some (.vs k), some (.vp p), some (.vs i) => some ⟨k, p, i⟩
  | _, _, _ => none

/-- `save_list_data` (main.py 1587-1614): the `list_items` value written to
the config document is the ordered list of `to_dict` snapshots. -/
def save_list_data (items : List DataItem) : List StoredRec :=
  items.map DataItem.to_dict

/-- `load_list_data` (main.py 1616-1647): each record is reconstructed with
`from_dict`; a record that fails to reconstruct is skipped, the rest are
kept in order. -/
def load_list_data (recs : List StoredRec) : List DataItem :=
  recs.filterMap DataItem.from_dict

/-! ## Saved prompts (main.py 688-704, `add_or_update_prompt`) -/

structure SavedPrompt where
  text : Str
  note : Str
  created : Str
  updated : Str
deriving DecidableEq

/-- `note.strip() if note else ""`. -/
def noteNorm (note : Str) : Str := if note = [] then [] else pyStrip note

/-- Update the first record whose text matches (the `next(...)` hit),
replacing its `updated` stamp and note in place. -/
def updateFirstPrompt (t newNote now : Str) : List SavedPrompt → List SavedPrompt
  | [] => []
  | p :: rest =>
    if p.text = t then { p with note := newNote, updated := now } :: rest
    else p :: updateFirstPrompt t newNote now rest

/-- `SavedPromptsManager.add_or_update_prompt` (main.py 688-704).  Returns
the new `manual_prompts` list and whether `_save()` ran (the early return
for blank text skips it). -/
def add_or_update_prompt (now : Str) (ps : List SavedPrompt)
    (text note : Str) : List SavedPrompt × Bool :=
  if pyStrip text = [] then (ps, false)
  else
    match ps.find? (fun p => p.text = pyStrip text) with
    | some _ => (updateFirstPrompt (pyStrip text) (noteNorm note) now ps, true)
    | none => (ps ++ [⟨pyStrip text, noteNorm note, now, now⟩], true)

/-! ## SiYuan document fetch (main.py 596-646, `SiYuanHelper.get_document`) -/

inductive Json where
  | jnull
  | jbool (b : Bool)
  | jnum (n : Int)
  | jstr (x : Str)
  | jarr (xs : List Json)
  | jobj (kvs : List (Str × Json))

def jlookup (kvs : List (Str × Json)) (k : Str) : Option Json :=
  match kvs with
  | [] => none
  | (k0, v0) :: rest => if k0 = k then some v0 else jlookup rest k

/-- Python truthiness of a JSON value. -/
def jtruthy : Json → Bool
  | .jnull => false
  | .jbool b => b
  | .jnum n => n != 0
  | .jstr x => !x.isEmpty
  | .jarr xs => !xs.isEmpty
  | .jobj kvs => !kvs.isEmpty

/-- Python `v == 0` for `j.get("code")` (`None` when the key is absent;
`False == 0` holds in Python). -/
def pyEqZero : Option Json → Bool
  | some (.jnum 0) => true
  | some (.jbool false) => true
  | _ => false

/-- An HTTP response as seen by `requests`: `jsonBody = none` models
`resp.json()` raising on a malformed body. -/
structure HttpResp where
  status_code : Nat
  jsonBody : Option Json

/-- The configured helper (main.py 600-604). -/
structure SiYuanHelper where
  api_base_url : Str
  api_token : Str
  timeout : Int

/-- `SiYuanHelper.get_document` (main.py 606-646).  `net = none` models
`requests.post` raising (network error / timeout), which the enclosing
try/except converts to `(None, None)`. -/
def get_document (h : SiYuanHelper) (net : Option HttpResp) (doc_id : Str) :
    Option Json × Option Json :=
  if h.api_base_url = [] ∨ h.api_token = [] then (none, none)
  else
    match net with
    | none => (none, none)
    | some resp =>
      if resp.status_code ≠ 200 then (none, none)
      else
        match resp.jsonBody with
        | none => (none, none)
        | some j =>
          match j with
          | .jobj kvs =>
            if !(pyEqZero (jlookup kvs "code".data)) then (none, none)
            else
              match (jlookup kvs "data".data).getD (.jobj []) with
              | .jobj dkvs =>
                let title :=
                  match jlookup dkvs "hPath".data with
                  | some v => if jtruthy v then v else .jstr doc_id
                  | none => .jstr doc_id
                let content := (jlookup dkvs "content".data).getD (.jstr [])
                (some title, some content)
              | _ => (none, none)
          | _ => (none, none)

/-! ## Concrete environments used by witnesses and counterexamples -/

/-- A benign environment: reads succeed, no optional dependency present. -/
def env0 : Env :=
  ⟨fun _ => .ok "a,b\n1,2".data, fun _ => .ok 1, false, false, false, false,
   false, fun _ => [], fun _ => [], fun _ => [], fun _ => [], fun _ => [],
   fun _ => .error [], fun _ => .error [], fun _ => .error []⟩

/-- An environment whose `open()` raises (missing/unreadable file). -/
def envOpenFails : Env :=
  ⟨fun _ => .error "FileNotFoundError".data, fun _ => .ok 1, false, false,
   false, false, false, fun _ => [], fun _ => [], fun _ => [], fun _ => [],
   fun _ => [], fun _ => .error [], fun _ => .error [], fun _ => .error []⟩

/-! ## C1 -/

/-- C1 counterexample: extraction is not total.  With a `.csv` path whose
`open()` raises, `read_text_from_any_file` lets the exception escape
(the `.csv`/`.tsv` branch performs its read outside of any try/except),
instead of returning a bracketed diagnostic string. -/
theorem extract_csv_open_failure_raises :
    read_text_from_any_file envOpenFails "a.csv".data
      = Except.error "FileNotFoundError".data := by decide

/-- C1 (amended): for every path whose lower-cased extension is not
`.csv`/`.tsv`, `read_text_from_any_file` returns a plain string — every
failure in those branches is converted to a bracketed diagnostic embedded
in the returned text.  The `.csv`/`.tsv` branch reads and parses outside
any try/except, so it returns a string exactly when the open succeeds and
the `csv.reader` iteration raises no error; a failing open (missing or
unreadable file) or an in-parse `_csv.Error` (a field beyond the field
size limit) escapes to the caller. -/
theorem extract_total_unless_delimited_open_fails (env : Env) (path : Str)
    (h : (extOf path ≠ ".csv".data ∧ extOf path ≠ ".tsv".data)
      ∨ ∃ c rows, env.openText path = Except.ok c
          ∧ csvParse (if extOf path = ".csv".data then ',' else '\t') c
              = Except.ok rows) :
    ∃ out, read_text_from_any_file env path = Except.ok out := by
  unfold read_text_from_any_file
  by_cases h1 : extOf path = ".csv".data ∨ extOf path = ".tsv".data
  · rw [if_pos h1]
    rcases h with ⟨ha, hb⟩ | ⟨c, rows, hc, hr⟩
    · rcases h1 with h1 | h1
      · exact absurd h1 ha
      · exact absurd h1 hb
    · rw [hc]
      dsimp only
      rw [hr]
      exact ⟨_, rfl⟩
  · rw [if_neg h1]
    split
    · exact ⟨_, rfl⟩
    · split
      · exact ⟨_, rfl⟩
      · split
        · exact ⟨_, rfl⟩
        · split
          · exact ⟨_, rfl⟩
          · cases hov : env.openText path
            · exact ⟨_, rfl⟩
            · exact ⟨_, rfl⟩

/-- Supporting evidence for the C1 amendment: an `_csv.Error` raised
while `csv.reader` iterates (field over the field size limit) also
escapes `read_text_from_any_file`, because the `.csv`/`.tsv` branch has
no try/except around the parse either. -/
theorem extract_csv_parse_error_raises (env : Env) (path c e : Str)
    (hext : extOf path = ".csv".data)
    (hopen : env.openText path = Except.ok c)
    (hparse : csvParse ',' c = Except.error e) :
    read_text_from_any_file env path = Except.error e := by
  unfold read_text_from_any_file
  rw [if_pos (Or.inl hext), hopen]
  dsimp only
  rw [if_pos hext, hparse]

/-- C1 witness: the amended totality theorem applied at a `.txt` path in
an environment whose reads fail. -/
theorem extract_total_unless_delimited_open_fails_wit :
    (extOf "a.txt".data ≠ ".csv".data ∧ extOf "a.txt".data ≠ ".tsv".data)
    ∧ ∃ out, read_text_from_any_file envOpenFails "a.txt".data = Except.ok out :=
  ⟨by decide,
   extract_total_unless_delimited_open_fails envOpenFails "a.txt".data
     (Or.inl (by decide))⟩

/-! ## C9 -/

/-- C9: extracting a `.csv` file whose decoded content is the two rows
`a,b` and `1,2` yields exactly the tab-joined, newline-joined text. -/
theorem csv_two_rows_tab_joined (env : Env) (path : Str)
    (hext : extOf path = ".csv".data)
    (hopen : env.openText path = Except.ok "a,b\n1,2".data) :
    read_text_from_any_file env path = Except.ok "a\tb\n1\t2".data := by
  unfold read_text_from_any_file
  rw [if_pos (Or.inl hext), hopen, if_pos hext]
  decide

/-- C9 witness: the scenario at a concrete path and environment. -/
theorem csv_two_rows_tab_joined_wit :
    extOf "t.csv".data = ".csv".data
    ∧ read_text_from_any_file env0 "t.csv".data = Except.ok "a\tb\n1\t2".data :=
  ⟨by decide, csv_two_rows_tab_joined env0 "t.csv".data (by decide) rfl⟩

/-! ## C4 -/

theorem from_dict_to_dict (it : DataItem) :
    DataItem.from_dict it.to_dict = some it := rfl

/-- C4: restoring a snapshot yields the same ordered sequence of
`(id, kind, payload)` tuples; every item is reconstructed with its
original id, and no new ids are assigned. -/
theorem snapshot_restore_roundtrip (items : List DataItem) :
    load_list_data (save_list_data items) = items
    ∧ (load_list_data (save_list_data items)).map
        (fun it => (it._id, it.kind, it.payload))
      = items.map (fun it => (it._id, it.kind, it.payload)) := by
  have h : load_list_data (save_list_data items) = items := by
    unfold load_list_data save_list_data
    induction items with
    | nil => rfl
    | cons it rest ih =>
      simp only [List.map_cons, List.filterMap_cons, from_dict_to_dict]
      exact congrArg (it :: ·) ih
  exact ⟨h, by rw [h]⟩

/-! ## C10 -/

/-- C10: saving an empty or whitespace-only text is a complete no-op —
the prompt store is returned unchanged and `_save()` never runs. -/
theorem add_prompt_blank_noop (now : Str) (ps : List SavedPrompt)
    (text note : Str) (h : pyStrip text = []) :
    add_or_update_prompt now ps text note = (ps, false) := by
  unfold add_or_update_prompt
  rw [h]
  rfl

/-- C10 witness: a whitespace-only text at a concrete store. -/
theorem add_prompt_blank_noop_wit :
    pyStrip " \n\t ".data = []
    ∧ add_or_update_prompt "2026-01-01 00:00:00".data
        [⟨"keep".data, [], "c".data, "u".data⟩] " \n\t ".data "note".data
      = ([⟨"keep".data, [], "c".data, "u".data⟩], false) :=
  ⟨by decide,
   add_prompt_blank_noop "2026-01-01 00:00:00".data
     [⟨"keep".data, [], "c".data, "u".data⟩] " \n\t ".data "note".data
     (by decide)⟩

/-! ## C8 -/

/-- C8: `get_document` never raises — by case analysis its result is
either a `(title, content)` pair or `(none, none)` — and each failure
mode (missing configuration, a raised request, a non-200 status, a
malformed body, a non-zero API code, a non-dict data field) yields
`(none, none)`, while a well-formed success yields a pair. -/
theorem get_document_total_shape (h : SiYuanHelper) (net : Option HttpResp)
    (doc_id : Str) :
    (get_document h net doc_id = (none, none)
      ∨ ∃ t c, get_document h net doc_id = (some t, some c))
    ∧ (h.api_base_url = [] ∨ h.api_token = []
        → get_document h net doc_id = (none, none))
    ∧ (net = none → get_document h net doc_id = (none, none))
    ∧ (∀ r, net = some r → r.status_code ≠ 200
        → get_document h net doc_id = (none, none))
    ∧ (∀ r, net = some r → r.jsonBody = none
        → get_document h net doc_id = (none, none))
    ∧ (∀ r kvs, net = some r → r.jsonBody = some (.jobj kvs)
        → pyEqZero (jlookup kvs "code".data) = false
        → get_document h net doc_id = (none, none))
    ∧ (∀ r kvs dkvs, h.api_base_url ≠ [] → h.api_token ≠ []
        → net = some r → r.status_code = 200
        → r.jsonBody = some (.jobj kvs)
        → pyEqZero (jlookup kvs "code".data) = true
        → (jlookup kvs "data".data).getD (.jobj []) = .jobj dkvs
        → ∃ t c, get_document h net doc_id = (some t, some c)) := by
  refine ⟨?_, ?_, ?_, ?_, ?_, ?_, ?_⟩
  · unfold get_document
    repeat first
      | exact Or.inl rfl
      | exact Or.inr ⟨_, _, rfl⟩
      | split
  · intro hor
    unfold get_document
    rw [if_pos hor]
  · intro hn
    subst hn
    unfold get_document
    split
    · rfl
    · rfl
  · intro r hr hst
    subst hr
    unfold get_document
    split
    · rfl
    · simp only [if_pos hst]
  · intro r hr hbn
    subst hr
    unfold get_document
    split
    · rfl
    · by_cases hst : r.status_code ≠ 200
      · simp only [if_pos hst]
      · simp only [if_neg hst, hbn]
  · intro r kvs hr hjs hz
    subst hr
    unfold get_document
    split
    · rfl
    · by_cases hst : r.status_code ≠ 200
      · simp only [if_pos hst]
      · simp only [if_neg hst, hjs, hz, Bool.not_false, if_true]
  · intro r kvs dkvs h1 h2 hr hst hjs hz hd
    subst hr
    unfold get_document
    rw [if_neg (by rintro (hx | hx) <;> [exact h1 hx; exact h2 hx])]
    simp only [hst, ne_eq, not_true_eq_false, if_false, hjs, hz, Bool.not_true,
      Bool.false_eq_true, if_neg, hd]
    exact ⟨_, _, rfl⟩

/-- A well-formed success response for the witness. -/
def respOk : HttpResp :=
  ⟨200, some (.jobj [("code".data, .jnum 0),
    ("data".data, .jobj [("hPath".data, .jstr "/T".data),
      ("content".data, .jstr "body".data)])])⟩

/-- C8 witness: the theorem applied at a configured helper with a
well-formed 200 response (success pair) and at a raised request. -/
theorem get_document_total_shape_wit :
    (∃ t c, get_document ⟨"u".data, "k".data, 8⟩ (some respOk) "d1".data
      = (some t, some c))
    ∧ get_document ⟨"u".data, "k".data, 8⟩ none "d1".data = (none, none) :=
  ⟨(get_document_total_shape ⟨"u".data, "k".data, 8⟩ (some respOk)
      "d1".data).2.2.2.2.2.2 respOk
      [("code".data, .jnum 0),
       ("data".data, .jobj [("hPath".data, .jstr "/T".data),
         ("content".data, .jstr "body".data)])]
      [("hPath".data, .jstr "/T".data), ("content".data, .jstr "body".data)]
      (by decide) (by decide) rfl rfl rfl (by decide) rfl,
   (get_document_total_shape ⟨"u".data, "k".data, 8⟩ none "d1".data).2.2.1 rfl⟩

/-! ## C2 -/

/-- An ordered fallback chain: each entry is `(tried, result, accepted)`;
the first entry that is both tried and accepted supplies the result,
otherwise the fallback is returned. -/
def firstAccepted : List (Bool × Str × Bool) → Str → Str
  | [], fb => fb
  | (tried, res, acc) :: rest, fb =>
    if tried && acc then res else firstAccepted rest fb

/-- The six `.doc` methods in the code's order, with the code's per-method
availability guards and acceptance checks: a result is accepted when it
does not carry that method's own checked failure marks (the sixth,
python-docx, instead requires its rendered output to be non-blank). -/
def docMethods (env : Env) (path : Str) : List (Bool × Str × Bool) :=
  [(env.win32Available, env.win32Read path,
      !(w32FailMark.isPrefixOf (env.win32Read path))),
   (env.subprocessAvailable, env.antiwordRead path,
      !(antiMissMark.isPrefixOf (env.antiwordRead path))
        && !(antiFailMark.isPrefixOf (env.antiwordRead path))),
   (env.subprocessAvailable, env.catdocRead path,
      !(catMissMark.isPrefixOf (env.catdocRead path))
        && !(catFailMark.isPrefixOf (env.catdocRead path))),
   (env.subprocessAvailable, env.unoconvRead path,
      !(unoMissMark.isPrefixOf (env.unoconvRead path))
        && !(unoFailMark.isPrefixOf (env.unoconvRead path))),
   (true, env.textractRead path,
      !(textMissMark.isPrefixOf (env.textractRead path))
        && !(textFailMark.isPrefixOf (env.textractRead path))),
   (env.docxAvailable,
      (match env.docxRead path with | .ok d => renderDocx d | .error _ => []),
      (match env.docxRead path with
       | .ok d => !(pyStrip (renderDocx d)).isEmpty
       | .error _ => false))]

/-- The claim's stated acceptance condition for the same six methods:
the result must be NON-EMPTY text not matching the failure marks. -/
def docMethodsClaim (env : Env) (path : Str) : List (Bool × Str × Bool) :=
  (docMethods env path).map (fun m => (m.1, m.2.1, !m.2.1.isEmpty && m.2.2))

/-- C2 counterexample: an environment in which a converter (here textract,
the always-attempted fifth method) returns an empty string.  The code
short-circuits on that empty result and returns the empty string,
whereas the claim's chain (success requires non-empty text) rejects
every method and must end in the installation-guidance string — so the
claim's success condition is not the code's. -/
theorem doc_chain_accepts_empty_cex :
    extractDoc envOpenFails "f.doc".data = []
    ∧ firstAccepted (docMethodsClaim envOpenFails "f.doc".data) installGuide
        = installGuide
    ∧ installGuide ≠ [] := by
  refine ⟨?_, ?_, by decide⟩
  · decide
  · decide

/-- C2 (amended): the `.doc` extraction equals the ordered six-method
fallback chain that short-circuits on the first attempted method whose
result does not carry that method's checked failure marks (with the
python-docx method additionally requiring non-blank output — an empty
result from an earlier method also short-circuits), and returns the
complete installation-guidance string when every method fails. -/
theorem doc_chain_first_accepted (env : Env) (path : Str) :
    extractDoc env path = firstAccepted (docMethods env path) installGuide := by
  unfold extractDoc docMethods
  simp only [firstAccepted, Bool.true_and]
  split
  · rfl
  · split
    · rfl
    · split
      · rfl
      · split
        · rfl
        · split
          · rfl
          · cases hdx : env.docxRead path with
            | ok d =>
              cases hda : env.docxAvailable
              · simp [hda]
              · by_cases hb : (pyStrip (renderDocx d)).isEmpty
                · simp [hda, hdx, hb]
                · simp [hda, hdx, hb]
            | error e =>
              cases hda : env.docxAvailable <;> simp [hda, hdx]

/-! ## C7 -/

theorem updateFirstPrompt_texts (t newNote now : Str) :
    ∀ ps : List SavedPrompt,
      (updateFirstPrompt t newNote now ps).map SavedPrompt.text
        = ps.map SavedPrompt.text := by
  intro ps
  induction ps with
  | nil => rfl
  | cons p rest ih =>
    unfold updateFirstPrompt
    by_cases hp : p.text = t
    · rw [if_pos hp]
      simp only [List.map_cons]
    · rw [if_neg hp]
      simp only [List.map_cons, ih]

theorem updateFirstPrompt_skip_then_hit (t newNote now : Str)
    (l1 l2 : List SavedPrompt) (p : SavedPrompt) (hp : p.text = t)
    (hl1 : ∀ q ∈ l1, q.text ≠ t) :
    updateFirstPrompt t newNote now (l1 ++ p :: l2)
      = l1 ++ { p with note := newNote, updated := now } :: l2 := by
  induction l1 with
  | nil =>
    simp only [List.nil_append, updateFirstPrompt]
    rw [if_pos hp]
  | cons q rest ih =>
    have hq : q.text ≠ t := hl1 q (List.mem_cons_self q rest)
    simp only [List.cons_append, updateFirstPrompt]
    rw [if_neg hq]
    exact congrArg (q :: ·) (ih (fun r hr => hl1 r (List.mem_cons_of_mem q hr)))

theorem find?_skip_then_hit (t : Str) (l1 l2 : List SavedPrompt)
    (p : SavedPrompt) (hp : p.text = t) (hl1 : ∀ q ∈ l1, q.text ≠ t) :
    (l1 ++ p :: l2).find? (fun q => q.text = t) = some p := by
  induction l1 with
  | nil =>
    simp only [List.nil_append]
    exact List.find?_cons_of_pos _ (by simp [hp])
  | cons q rest ih =>
    rw [List.cons_append,
      List.find?_cons_of_neg _ (by simp [hl1 q (List.mem_cons_self q rest)])]
    exact ih (fun r hr => hl1 r (List.mem_cons_of_mem q hr))

/-- C7: saved prompts are unique by exact (stripped) text.  Saving a text
that already exists updates the first matching record's note and
`updated` stamp in place — same length, same texts, no second record;
saving a new text appends exactly one record; and the no-two-records-
share-a-text invariant is preserved by the operation. -/
theorem saved_prompt_upsert (now text note : Str) (ps l1 l2 : List SavedPrompt)
    (p : SavedPrompt) (ht : pyStrip text ≠ []) :
    ((ps = l1 ++ p :: l2 → p.text = pyStrip text
        → (∀ q ∈ l1, q.text ≠ pyStrip text)
        → add_or_update_prompt now ps text note
            = (l1 ++ { p with note := noteNorm note, updated := now } :: l2, true))
    ∧ ((∀ q ∈ ps, q.text ≠ pyStrip text)
        → add_or_update_prompt now ps text note
            = (ps ++ [⟨pyStrip text, noteNorm note, now, now⟩], true))
    ∧ ((ps.map SavedPrompt.text).Nodup
        → (((add_or_update_prompt now ps text note).1.map SavedPrompt.text)).Nodup)) := by
  refine ⟨?_, ?_, ?_⟩
  · intro hps hp hl1
    subst hps
    unfold add_or_update_prompt
    rw [if_neg ht, find?_skip_then_hit (pyStrip text) l1 l2 p hp hl1]
    rw [updateFirstPrompt_skip_then_hit (pyStrip text) (noteNorm note) now l1 l2 p hp hl1]
  · intro hnone
    unfold add_or_update_prompt
    rw [if_neg ht]
    rw [List.find?_eq_none.2 (fun q hq => by simp [hnone q hq])]
  · intro hnd
    unfold add_or_update_prompt
    rw [if_neg ht]
    cases hf : ps.find? (fun q => q.text = pyStrip text) with
    | some q =>
      simp only [updateFirstPrompt_texts]
      exact hnd
    | none =>
      have hnotin : pyStrip text ∉ ps.map SavedPrompt.text := by
        intro hmem
        rcases List.mem_map.1 hmem with ⟨q, hq, hqt⟩
        have := List.find?_eq_none.1 hf q hq
        simp [hqt] at this
      simp only [List.map_append, List.map_cons, List.map_nil]
      rw [List.nodup_append]
      exact ⟨hnd, List.nodup_singleton _, by
        intro a ha hb
        simp only [List.mem_singleton] at hb
        subst hb
        exact hnotin ha⟩

/-- C7 witness: updating an existing text in a one-record store keeps a
single record with refreshed note and timestamp. -/
theorem saved_prompt_upsert_wit :
    pyStrip "hello".data ≠ []
    ∧ add_or_update_prompt "T2".data
        [⟨"hello".data, "old".data, "T0".data, "T1".data⟩] "hello".data "new".data
      = ([⟨"hello".data, noteNorm "new".data, "T0".data, "T2".data⟩], true) :=
  ⟨by decide,
   (saved_prompt_upsert "T2".data "hello".data "new".data
      [⟨"hello".data, "old".data, "T0".data, "T1".data⟩] []
      [] ⟨"hello".data, "old".data, "T0".data, "T1".data⟩ (by decide)).1
     rfl (by decide) (by intro q hq; cases hq)⟩

/-! ## C6 -/

theorem read_single_file_fst (env : Env) (fp : Str) :
    (read_single_file env fp).1 = fp := by
  unfold read_single_file
  cases env.getsize fp with
  | error e => rfl
  | ok size =>
    by_cases hs : size > FILE_SIZE_LIMIT
    · simp [hs]
    · simp only [if_neg hs]
      cases read_text_from_any_file env fp <;> rfl

theorem dinsert_fresh (m : List (Str × Str × Nat)) (k : Str) (v : Str × Nat)
    (hk : k ∉ m.map Prod.fst) : dinsert m k v = m ++ [(k, v)] := by
  induction m with
  | nil => rfl
  | cons e rest ih =>
    unfold dinsert
    rw [if_neg (by
      intro he
      exact hk (by rw [← he]; exact List.mem_cons_self _ _))]
    rw [List.cons_append]
    exact congrArg (e :: ·) (ih (fun hm => hk (List.mem_cons_of_mem _ hm)))

theorem gather_fresh_map (env : Env) :
    ∀ (order : List Str) (acc : List (Str × Str × Nat)),
      order.Nodup → (∀ fp ∈ order, fp ∉ acc.map Prod.fst) →
      order.foldl
        (fun m fp =>
          match read_single_file env fp with
          | (fp1, size, content) => dinsert m fp1 (content, size))
        acc
      = acc ++ order.map (fun fp =>
          (fp, ((read_single_file env fp).2.2, (read_single_file env fp).2.1))) := by
  intro order
  induction order with
  | nil => intro acc _ _; simp
  | cons fp rest ih =>
    intro acc hnd hdisj
    have hstep :
        (match read_single_file env fp with
         | (fp1, size, content) => dinsert acc fp1 (content, size))
        = acc ++ [(fp, ((read_single_file env fp).2.2, (read_single_file env fp).2.1))] := by
      have h1 : (read_single_file env fp).1 = fp := read_single_file_fst env fp
      calc (match read_single_file env fp with
            | (fp1, size, content) => dinsert acc fp1 (content, size))
          = dinsert acc (read_single_file env fp).1
              ((read_single_file env fp).2.2, (read_single_file env fp).2.1) := rfl
        _ = acc ++ [(fp, ((read_single_file env fp).2.2, (read_single_file env fp).2.1))] := by
            rw [h1]
            exact dinsert_fresh acc fp _ (hdisj fp (List.mem_cons_self fp rest))
    rw [List.foldl_cons, hstep,
      ih (acc ++ [(fp, ((read_single_file env fp).2.2, (read_single_file env fp).2.1))])
        (List.Nodup.of_cons hnd)
        (by
          intro q hq
          simp only [List.map_append, List.mem_append, List.map_cons, List.map_nil,
            List.mem_singleton, not_or]
          refine ⟨hdisj q (List.mem_cons_of_mem fp hq), ?_⟩
          intro hqe
          rcases List.nodup_cons.1 hnd with ⟨hfp, _⟩
          exact hfp (hqe ▸ hq)),
      List.append_assoc, List.singleton_append, List.map_cons]

theorem dlookup_map_self (val : Str → Str × Nat) :
    ∀ (l : List Str) (fp : Str), fp ∈ l →
      dlookup (l.map (fun k => (k, val k))) fp = some (val fp) := by
  intro l
  induction l with
  | nil => intro fp hfp; cases hfp
  | cons k rest ih =>
    intro fp hfp
    unfold dlookup
    simp only [List.map_cons]
    by_cases hk : k = fp
    · subst hk
      rw [if_pos rfl]
    · rw [if_neg hk]
      rcases List.mem_cons.1 hfp with h | h
      · exact absurd h.symm hk
      · exact ih fp h

/-- C6: submitting K distinct paths with the fixed pool of size
`MAX_CONCURRENT_FILES = 5 < K` yields exactly K results — each submitted
path appears exactly once as a key and maps to that file's own processed
result — for every completion order of the workers. -/
theorem concurrent_ingest_complete (env : Env) (paths order : List Str)
    (_hw : MAX_CONCURRENT_FILES < paths.length)
    (hnd : paths.Nodup) (hperm : order.Perm paths) :
    (read_text_files_by_paths env order).length = paths.length
    ∧ ((read_text_files_by_paths env order).map Prod.fst).Perm paths
    ∧ ((read_text_files_by_paths env order).map Prod.fst).Nodup
    ∧ ∀ fp ∈ paths,
        dlookup (read_text_files_by_paths env order) fp
          = some ((read_single_file env fp).2.2, (read_single_file env fp).2.1) := by
  have hond : order.Nodup := hperm.nodup_iff.2 hnd
  have hmain : read_text_files_by_paths env order
      = order.map (fun fp =>
          (fp, ((read_single_file env fp).2.2, (read_single_file env fp).2.1))) := by
    have := gather_fresh_map env order [] hond (by intro fp _ h; cases h)
    simpa [read_text_files_by_paths] using this
  have hfst : (read_text_files_by_paths env order).map Prod.fst = order := by
    rw [hmain, List.map_map]
    simp [Function.comp_def]
  refine ⟨?_, ?_, ?_, ?_⟩
  · rw [hmain, List.length_map, hperm.length_eq]
  · rw [hfst]; exact hperm
  · rw [hfst]; exact hond
  · intro fp hfp
    rw [hmain]
    exact dlookup_map_self _ order fp (hperm.mem_iff.2 hfp)

/-- Six distinct paths and a completion order different from submission
order, for the C6 witness. -/
def sixPaths : List Str :=
  ["p1".data, "p2".data, "p3".data, "p4".data, "p5".data, "p6".data]

def sixOrder : List Str := sixPaths.reverse

/-- C6 witness: the theorem applied at six distinct paths completed in
reverse order under a concrete environment. -/
theorem concurrent_ingest_complete_wit :
    (read_text_files_by_paths env0 sixOrder).length = sixPaths.length
    ∧ ((read_text_files_by_paths env0 sixOrder).map Prod.fst).Perm sixPaths
    ∧ ((read_text_files_by_paths env0 sixOrder).map Prod.fst).Nodup
    ∧ ∀ fp ∈ sixPaths,
        dlookup (read_text_files_by_paths env0 sixOrder) fp
          = some ((read_single_file env0 fp).2.2, (read_single_file env0 fp).2.1) :=
  concurrent_ingest_complete env0 sixPaths sixOrder (by decide) (by decide)
    (by decide)

/-! ## C3 -/

/-- The claim's view of the merge output: every item contributes its
labeled block and exactly one separator stands between consecutive
blocks (none after the last). -/
def blocksJoined : List DataItem → List Str
  | [] => []
  | [it] => itemLines it
  | it :: rest => itemLines it ++ mergeSep :: blocksJoined rest

theorem itemLines_head (it : DataItem) :
    ∀ l ∈ itemLines it, l.head? = some '【' ∨ l.head? = some ' ' := by
  obtain ⟨kind, payload, iid⟩ := it
  intro l hl
  cases payload <;> simp only [itemLines] at hl <;> (repeat' split at hl) <;>
    try (rw [List.mem_singleton] at hl; subst hl)
  all_goals try exact Or.inl rfl
  all_goals rcases List.mem_cons.1 hl with hl | hl
  all_goals try (subst hl; exact Or.inl rfl)
  all_goals rcases List.mem_map.1 hl with ⟨fi, hfi1, hfi2⟩
  all_goals subst hfi2
  all_goals unfold folderFileLine
  all_goals split
  all_goals exact Or.inr rfl

theorem sep_not_mem_itemLines (it : DataItem) : mergeSep ∉ itemLines it := by
  intro hmem
  rcases itemLines_head it mergeSep hmem with h | h <;> exact absurd h (by decide)

theorem itemLines_ne_nil (it : DataItem) : itemLines it ≠ [] := by
  obtain ⟨kind, payload, iid⟩ := it
  cases payload <;> simp only [itemLines] <;>
    repeat
      first
      | simp
      | split

theorem blocksJoined_count (items : List DataItem) :
    (blocksJoined items).count mergeSep = items.length - 1 := by
  induction items with
  | nil => rfl
  | cons it rest ih =>
    cases rest with
    | nil =>
      simp [blocksJoined, List.count_eq_zero.2 (sep_not_mem_itemLines it)]
    | cons it2 rest2 =>
      rw [blocksJoined, List.count_append, List.count_cons, ih]
      · rw [List.count_eq_zero.2 (sep_not_mem_itemLines it)]
        simp only [List.length_cons, beq_self_eq_true, if_true]
        omega
      · exact List.cons_ne_nil it2 rest2

theorem mergeLines_eq_blocksJoined (items : List DataItem)
    (hp : ∀ it ∈ items, it.payload ≠ Payload.pempty) :
    mergeLines items = blocksJoined items := by
  induction items with
  | nil => rfl
  | cons it rest ih =>
    cases rest with
    | nil => rfl
    | cons it2 rest2 =>
      rw [mergeLines, if_neg (by simp),
        if_neg (hp it (List.mem_cons_self it (it2 :: rest2))),
        blocksJoined,
        ih (fun q hq => hp q (List.mem_cons_of_mem it hq))]
      exact List.cons_ne_nil it2 rest2

/-- C3: with every payload non-empty (the data-model invariant for
successfully created items), the merge renders every item in order as a
labeled block (per-file sub-lines for `folder` items), places exactly
`n - 1` separators between the `n` blocks with none after the last, never
skips an item, and renders an empty-content file item as an explicit
empty marker instead of dropping it. -/
theorem merge_labeled_blocks (items : List DataItem)
    (hp : ∀ it ∈ items, it.payload ≠ Payload.pempty) :
    mergeLines items = blocksJoined items
    ∧ (mergeLines items).count mergeSep = items.length - 1
    ∧ (∀ it ∈ items, itemLines it ≠ [])
    ∧ (∀ it ∈ items, ∀ fp c n dn, it.kind = "text_file".data
        → it.payload = Payload.pfile fp c n dn → pyStrip c = []
        → itemLines it = ["【".data ++ basename fp ++ "（空内容）】\n".data]) := by
  refine ⟨mergeLines_eq_blocksJoined items hp, ?_, fun it _ => itemLines_ne_nil it, ?_⟩
  · rw [mergeLines_eq_blocksJoined items hp]
    exact blocksJoined_count items
  · intro it _ fp c n dn hkind hpl hc
    obtain ⟨kind, payload, iid⟩ := it
    simp only at hkind hpl
    subst hkind
    subst hpl
    simp [itemLines, Payload.getContent, Payload.getFilePath, hc]

/-- The three-item scenario: manual text, a file with content, an
empty-content file. -/
def scenarioItems : List DataItem :=
  [⟨"manual".data, .pmanual "hello".data, "id1".data⟩,
   ⟨"text_file".data, .pfile "/a/w.txt".data "world".data 5 "w".data, "id2".data⟩,
   ⟨"text_file".data, .pfile "/a/e.txt".data [] 0 "e".data, "id3".data⟩]

/-- C3 witness: the theorem applied at the three-item scenario (three
labeled blocks, two separators, the empty one rendered as a marker). -/
theorem merge_labeled_blocks_wit :
    mergeLines scenarioItems = blocksJoined scenarioItems
    ∧ (mergeLines scenarioItems).count mergeSep = scenarioItems.length - 1
    ∧ (∀ it ∈ scenarioItems, itemLines it ≠ [])
    ∧ (∀ it ∈ scenarioItems, ∀ fp c n dn, it.kind = "text_file".data
        → it.payload = Payload.pfile fp c n dn → pyStrip c = []
        → itemLines it = ["【".data ++ basename fp ++ "（空内容）】\n".data]) :=
  merge_labeled_blocks scenarioItems (by decide)

/-! ## C5 -/

/-- The scanner loop over an already linearized walk order. -/
def scanRun : List (Str × FileRec) → ScanSt → Except (List Str) ScanSt
  | [], st => .ok st
  | (dp, f) :: rest, st =>
    match scanStep dp st f with
    | .error r => .error r
    | .ok st1 => scanRun rest st1

theorem scanRun_append (A B : List (Str × FileRec)) (st : ScanSt) :
    scanRun (A ++ B) st
      = match scanRun A st with
        | .error r => .error r
        | .ok st1 => scanRun B st1 := by
  induction A generalizing st with
  | nil => rfl
  | cons pf rest ih =>
    obtain ⟨dp, f⟩ := pf
    rw [List.cons_append]
    simp only [scanRun]
    cases scanStep dp st f with
    | error r => rfl
    | ok st1 =>
      dsimp only
      exact ih st1

theorem scanFiles_eq_run (dp : Str) (files : List FileRec) :
    ∀ st : ScanSt, scanFiles dp files st
      = scanRun (files.map (fun f => (dp, f))) st := by
  induction files with
  | nil => intro st; rfl
  | cons f rest ih =>
    intro st
    simp only [List.map_cons]
    unfold scanFiles scanRun
    cases scanStep dp st f with
    | error r => rfl
    | ok st1 =>
      dsimp only
      exact ih st1

mutual
theorem walkTree_eq_run (dp : Str) (t : DirTree) (st : ScanSt) :
    walkTree dp t st = scanRun (treeFiles dp t) st := by
  cases t with
  | node files subs =>
    rw [walkTree, treeFiles, scanRun_append, scanFiles_eq_run]
    cases scanRun (files.map (fun f => (dp, f))) st with
    | error r => rfl
    | ok st1 => exact walkForest_eq_run dp subs st1
theorem walkForest_eq_run (dp : Str) (forest : DirForest) (st : ScanSt) :
    walkForest dp forest st = scanRun (forestFiles dp forest) st := by
  cases forest with
  | nil => rfl
  | cons nm t rest =>
    rw [walkForest, forestFiles]
    by_cases hskip : nm ∈ skipDirs
    · rw [if_pos hskip, if_pos hskip, List.nil_append]
      exact walkForest_eq_run dp rest st
    · rw [if_neg hskip, if_neg hskip, scanRun_append,
        walkTree_eq_run (pathJoin dp nm) t st]
      cases scanRun (treeFiles (pathJoin dp nm) t) st with
      | error r => rfl
      | ok st1 => exact walkForest_eq_run dp rest st1
end

/-- A file the claim's scenario admits: allow-listed extension, a
successful stat, and size within the per-file ceiling. -/
def goodFile (pf : Str × FileRec) : Prop :=
  extOf pf.2.fname ∈ ALLOWED_TEXT_EXTS ∧ pf.2.statOk = true
    ∧ pf.2.fsize ≤ FILE_SIZE_LIMIT

instance goodFileDec (pf : Str × FileRec) : Decidable (goodFile pf) := by
  unfold goodFile
  infer_instance

def sizeSum (L : List (Str × FileRec)) : Nat := (L.map (fun pf => pf.2.fsize)).sum

def pathsOf (L : List (Str × FileRec)) : List Str :=
  L.map (fun pf => pathJoin pf.1 pf.2.fname)

theorem scanStep_good (dp : Str) (st : ScanSt) (f : FileRec)
    (hg : goodFile (dp, f)) (hc : st.count < maxFiles)
    (hs : st.total + f.fsize ≤ totalSizeLimit) :
    scanStep dp st f
      = .ok ⟨st.res ++ [pathJoin dp f.fname], st.total + f.fsize, st.count + 1⟩ := by
  obtain ⟨hext, hstat, hsize⟩ := hg
  have hext2 : extOf f.fname ∈ ALLOWED_TEXT_EXTS := hext
  have hstat2 : f.statOk = true := hstat
  have hsize2 : f.fsize ≤ FILE_SIZE_LIMIT := hsize
  unfold scanStep
  rw [if_neg (by omega), if_pos hext2, if_pos hstat2, if_neg (by omega),
    if_neg (by omega)]

theorem scanRun_all_ok (L : List (Str × FileRec)) : ∀ st : ScanSt,
    (∀ pf ∈ L, goodFile pf) → st.count + L.length ≤ maxFiles
    → st.total + sizeSum L ≤ totalSizeLimit
    → scanRun L st
        = .ok ⟨st.res ++ pathsOf L, st.total + sizeSum L, st.count + L.length⟩ := by
  induction L with
  | nil =>
    intro st _ _ _
    simp [scanRun, pathsOf, sizeSum]
  | cons pf rest ih =>
    intro st hg hc hs
    obtain ⟨dp, f⟩ := pf
    have hsum : sizeSum ((dp, f) :: rest) = f.fsize + sizeSum rest := by
      simp [sizeSum]
    have hstep := scanStep_good dp st f (hg (dp, f) (List.mem_cons_self _ _))
      (by simp only [List.length_cons] at hc; omega)
      (by rw [hsum] at hs; omega)
    unfold scanRun
    rw [hstep]
    dsimp only
    rw [ih ⟨st.res ++ [pathJoin dp f.fname], st.total + f.fsize, st.count + 1⟩
      (fun q hq => hg q (List.mem_cons_of_mem _ hq))
      (by simp only [List.length_cons] at hc; simp only; omega)
      (by rw [hsum] at hs; simp only; omega)]
    simp only [pathsOf, List.map_cons, List.length_cons, hsum]
    rw [List.append_assoc, List.singleton_append]
    congr 2
    all_goals omega

theorem scanRun_count_trunc (L : List (Str × FileRec)) : ∀ st : ScanSt,
    (∀ pf ∈ L, goodFile pf) → maxFiles < st.count + L.length
    → st.count ≤ maxFiles
    → st.total + sizeSum (L.take (maxFiles - st.count)) ≤ totalSizeLimit
    → scanRun L st
        = .error (st.res ++ pathsOf (L.take (maxFiles - st.count))
            ++ [countWarnEntry]) := by
  induction L with
  | nil =>
    intro st _ hov hle _
    simp only [List.length_nil, Nat.add_zero] at hov
    omega
  | cons pf rest ih =>
    intro st hg hov hle hs
    obtain ⟨dp, f⟩ := pf
    by_cases hcnt : st.count ≥ maxFiles
    · have h0 : maxFiles - st.count = 0 := by omega
      unfold scanRun scanStep
      rw [if_pos hcnt]
      simp [h0, pathsOf]
    · have hcl : st.count < maxFiles := by omega
      have hk : maxFiles - st.count = (maxFiles - (st.count + 1)) + 1 := by omega
      have htake : ((dp, f) :: rest).take (maxFiles - st.count)
          = (dp, f) :: rest.take (maxFiles - (st.count + 1)) := by
        rw [hk, List.take_succ_cons]
      have hsum : sizeSum ((dp, f) :: rest.take (maxFiles - (st.count + 1)))
          = f.fsize + sizeSum (rest.take (maxFiles - (st.count + 1))) := by
        simp [sizeSum]
      rw [htake, hsum] at hs
      have hstep := scanStep_good dp st f (hg (dp, f) (List.mem_cons_self _ _))
        hcl (by omega)
      unfold scanRun
      rw [hstep]
      dsimp only
      rw [ih ⟨st.res ++ [pathJoin dp f.fname], st.total + f.fsize, st.count + 1⟩
        (fun q hq => hg q (List.mem_cons_of_mem _ hq))
        (by simp only [List.length_cons] at hov; simp only; omega)
        (by simp only; omega)
        (by simp only; omega)]
      rw [htake]
      simp only [pathsOf, List.map_cons]
      simp [List.append_assoc]

/-- C5: over a tree whose (pruned-walk-visible) files are all allow-listed,
stat-able and within the per-file ceiling: if their number is within the
1000-file ceiling and their cumulative size within the 500MB ceiling, the
scan returns exactly those N paths, in walk order, with no warning entry;
if their number exceeds the ceiling (sizes still within bounds), the scan
returns exactly the first 1000 paths plus exactly one trailing
count-truncation warning entry. -/
theorem scan_governors (root : Str) (t : DirTree)
    (hg : ∀ pf ∈ treeFiles root t, goodFile pf) :
    ((treeFiles root t).length ≤ maxFiles
      → sizeSum (treeFiles root t) ≤ totalSizeLimit
      → search_text_files_recursive root t = pathsOf (treeFiles root t)
        ∧ (pathsOf (treeFiles root t)).length = (treeFiles root t).length)
    ∧ (maxFiles < (treeFiles root t).length
      → sizeSum ((treeFiles root t).take maxFiles) ≤ totalSizeLimit
      → search_text_files_recursive root t
          = pathsOf ((treeFiles root t).take maxFiles) ++ [countWarnEntry]
        ∧ (pathsOf ((treeFiles root t).take maxFiles)).length = maxFiles) := by
  constructor
  · intro hlen hsz
    refine ⟨?_, by simp [pathsOf]⟩
    unfold search_text_files_recursive
    rw [walkTree_eq_run]
    rw [scanRun_all_ok (treeFiles root t) ⟨[], 0, 0⟩ hg (by simpa using hlen)
      (by simpa using hsz)]
    simp
  · intro hlen hsz
    refine ⟨?_, by simp [pathsOf, List.length_take]; omega⟩
    unfold search_text_files_recursive
    rw [walkTree_eq_run]
    rw [scanRun_count_trunc (treeFiles root t) ⟨[], 0, 0⟩ hg (by simpa using hlen)
      (Nat.zero_le _) (by simpa using hsz)]
    simp

/-- A small tree for the C5 witness: two files at the root, one inside a
pruned `.git` directory (never visited), one in a real subdirectory. -/
def witTree : DirTree :=
  .node [⟨"a.txt".data, 3, true⟩, ⟨"b.md".data, 4, true⟩]
    (.cons ".git".data (.node [⟨"c.py".data, 5, true⟩] .nil)
      (.cons "s".data (.node [⟨"d.rs".data, 6, true⟩] .nil) .nil))

/-- C5 witness: the theorem applied at the concrete tree — the scan
returns exactly its three visible paths with no warning entry. -/
theorem scan_governors_wit :
    (∀ pf ∈ treeFiles "r".data witTree, goodFile pf)
    ∧ search_text_files_recursive "r".data witTree
        = pathsOf (treeFiles "r".data witTree)
    ∧ (pathsOf (treeFiles "r".data witTree)).length
        = (treeFiles "r".data witTree).length :=
  ⟨by decide,
   ((scan_governors "r".data witTree (by decide)).1 (by decide) (by decide)).1,
   ((scan_governors "r".data witTree (by decide)).1 (by decide) (by decide)).2⟩
